import Mathlib

/-!
Shallow embedding of the cart / discount / order pricing pipeline of the
sham-khane e-commerce backend.

Sources embedded:
* `src/models/cart.model.ts` — the cart schema pre-save hooks (`saveItem`,
  `saveCart`): the item hook recomputes `totalPrice = price * quantity`
  (mongoose runs subdocument save middleware before the parent's), and the
  cart hook recomputes `totalItems`, `subtotal` and
  `total = max(0, subtotal - discount.amount)`.
* `src/controllers/cart.controller.js` — `addToCart`, `updateCartItem`,
  `removeFromCart`, `clearCart`, `applyDiscount`.
* `src/controllers/order.controller` (packed in `analytics.controller.js`) —
  `createOrder`.
* `src/controllers/discount.controller.ts` — `validateDiscount`.
* `src/models/discount.model.ts` — the discount fields and the `isValid`
  method.

Monetary values are modelled as rationals (`ℚ`), quantities and stock as
naturals, instants (`Date.now()` milliseconds) as integers.  Mongo document
ids are modelled as naturals.  Database state is passed explicitly: the
product catalog and the discount collection are lists, the per-user cart is
a value threaded through each operation, and a fallible controller returns
`Except`.
-/

deriving instance DecidableEq for Except

namespace ShamKhane

/-- JavaScript's `String.prototype.toUpperCase`, modelled character by
character over the string's character list. -/
def toUpperCase (s : String) : String := ⟨s.data.map Char.toUpper⟩

/-- A catalog product, projection of `product.model.ts` to the fields the
cart/order pipeline reads (`price`, `stock`). -/
structure Product where
  pid : Nat
  price : ℚ
  stock : Nat
deriving Repr, DecidableEq

/-- A cart line item (`cartItemSchema` in `cart.model.ts`): product
reference, quantity, unit-price snapshot and stored line total. -/
structure CartItem where
  id : Nat
  product : Nat
  quantity : Nat
  price : ℚ
  totalPrice : ℚ
deriving Repr, DecidableEq

/-- The `discount` subdocument stored on a cart (`code`, `amount`). -/
structure CartDiscount where
  code : Option String
  amount : ℚ
deriving Repr, DecidableEq

/-- A cart document (`cartSchema` in `cart.model.ts`), without the `user`
owner field (operations are already per-user). -/
structure Cart where
  items : List CartItem
  totalItems : Nat
  subtotal : ℚ
  discount : CartDiscount
  total : ℚ
deriving Repr, DecidableEq

/-- `Product.findById` over the catalog: first product with the given id. -/
def findProduct (catalog : List Product) (productId : Nat) : Option Product :=
  catalog.find? (fun p => p.pid == productId)

/-- `cartItemSchema.pre("save")` (cart.model.ts lines 83-86):
`this.totalPrice = this.price * this.quantity`.  Mongoose runs this
subdocument middleware on every save of the parent cart, before the parent
cart's own pre-save hook. -/
def saveItem (it : CartItem) : CartItem :=
  { it with totalPrice := it.price * (it.quantity : ℚ) }

/-- `cartSchema.pre("save")` (cart.model.ts lines 63-80) composed with the
item hook: recompute every item's `totalPrice`, then
`totalItems = Σ quantity`, `subtotal = Σ totalPrice`,
`total = Math.max(0, subtotal - discount.amount)`. -/
def saveCart (c : Cart) : Cart :=
  let items := c.items.map saveItem
  let totalItems := (items.map (fun it => it.quantity)).sum
  let subtotal := (items.map (fun it => it.totalPrice)).sum
  { c with
      items := items
      totalItems := totalItems
      subtotal := subtotal
      total := max 0 (subtotal - c.discount.amount) }

/-- Error outcomes of the cart controllers: each corresponds to one early
`return res.status(...)` branch.  `InternalError` stands for the uncaught
`TypeError` the JS controller hits when a cart line references a deleted
product (`product.stock` with `product === null`). -/
inductive CartError
  | ProductNotFound
  | InsufficientStock
  | ItemNotFound
  | InvalidDiscount
  | InternalError
deriving Repr, DecidableEq

/-- The item-array part of `addToCart`: `findIndex` on the product id, then
either increment the matching line's quantity and recompute its total
against the current catalog price, or push a fresh line snapshotting the
current price (cart.controller.js lines 70-87). -/
def addItemToItems (items : List CartItem) (productId quantity : Nat)
    (productPrice : ℚ) (freshId : Nat) : List CartItem :=
  match items with
  | [] =>
      [{ id := freshId, product := productId, quantity := quantity,
         price := productPrice, totalPrice := (quantity : ℚ) * productPrice }]
  | it :: rest =>
      if it.product == productId then
        { it with
            quantity := it.quantity + quantity,
            totalPrice := ((it.quantity + quantity : Nat) : ℚ) * productPrice } :: rest
      else
        it :: addItemToItems rest productId quantity productPrice freshId

/-- `addToCart` (cart.controller.js lines 35-104): product must exist, the
requested quantity alone is checked against stock, then the item list is
updated and the cart saved.  `freshId` models the `_id` mongoose assigns to
a newly pushed subdocument. -/
def addToCart (catalog : List Product) (cart : Cart)
    (productId quantity freshId : Nat) : Except CartError Cart :=
  match findProduct catalog productId with
  | none => .error .ProductNotFound
  | some product =>
      if product.stock < quantity then .error .InsufficientStock
      else
        .ok (saveCart { cart with
          items := addItemToItems cart.items productId quantity product.price freshId })

/-- Replace the first item satisfying `p` by its image under `f`
(the `findIndex` / mutate-at-index idiom of the controllers). -/
def updateFirst (p : CartItem → Bool) (f : CartItem → CartItem) :
    List CartItem → List CartItem
  | [] => []
  | it :: rest => if p it then f it :: rest else it :: updateFirst p f rest

/-- `updateCartItem` (cart.controller.js lines 109-164): locate the line by
`_id` (`ItemNotFound` if absent), re-check the product's current stock
against the new absolute quantity, then set the quantity and recompute the
line total against the *stored snapshot* price. -/
def updateCartItem (catalog : List Product) (cart : Cart)
    (itemId quantity : Nat) : Except CartError Cart :=
  match cart.items.find? (fun it => it.id == itemId) with
  | none => .error .ItemNotFound
  | some item =>
      match findProduct catalog item.product with
      | none => .error .InternalError
      | some product =>
          if product.stock < quantity then .error .InsufficientStock
          else
            .ok (saveCart { cart with
              items := updateFirst (fun it => it.id == itemId)
                (fun it => { it with
                    quantity := quantity,
                    totalPrice := (quantity : ℚ) * it.price })
                cart.items })

/-- `removeFromCart` (cart.controller.js lines 169-199): filter the line
out by `_id` and save; there is no check that the id was present. -/
def removeFromCart (cart : Cart) (itemId : Nat) : Except CartError Cart :=
  .ok (saveCart { cart with
    items := cart.items.filter (fun it => it.id != itemId) })

/-- `clearCart` (cart.controller.js lines 204-230): empty the items and
reset the discount to `{code: null, amount: 0}`, then save. -/
def clearCart (cart : Cart) : Except CartError Cart :=
  .ok (saveCart { cart with items := [], discount := { code := none, amount := 0 } })

/-- Discount kind (`type` enum of `discount.model.ts`). -/
inductive DiscountKind
  | percentage
  | fixed
deriving Repr, DecidableEq

/-- A discount document (`discount.model.ts`), projected to the fields the
pipeline reads.  `startDate`/`expiryDate` are epoch instants. -/
structure Discount where
  code : String
  kind : DiscountKind
  value : ℚ
  maxDiscount : Option ℚ
  minPurchase : ℚ
  usageLimit : Option Nat
  usageCount : Nat
  isActive : Bool
  startDate : Int
  expiryDate : Int
deriving Repr, DecidableEq

/-- The `Discount.findOne({code, isActive: true, expiryDate: {$gt: now}})`
query used by both `applyDiscount` and `validateDiscount`.  The schema
declares `code` with `uppercase: true`, and mongoose (v6+) runs that setter
on query filters, so the lookup matches the uppercased request code. -/
def findDiscount (discounts : List Discount) (code : String) (now : Int) :
    Option Discount :=
  discounts.find? (fun d =>
    d.code == toUpperCase code && d.isActive && decide (now < d.expiryDate))

/-- `discountSchema.methods.isValid` (discount.model.ts lines 117-125):
active, inside `[startDate, expiryDate]`, and (when a nonzero usage limit
is set) below the usage limit.  Defined in the model but never called by
the cart or discount controllers. -/
def Discount.isValidAt (d : Discount) (now : Int) : Bool :=
  d.isActive && decide (d.startDate ≤ now) && decide (now ≤ d.expiryDate) &&
    (match d.usageLimit with
     | none => true
     | some l => (l == 0) || decide (d.usageCount < l))

/-- `applyDiscount` (cart.controller.js lines 235-300): look the code up
(`InvalidDiscount` on failure), compute
`amount = subtotal * value / 100` for a percentage and `amount = value`
for a fixed discount, cap at `maxDiscount` whenever that field is set and
nonzero (JS truthiness) and the amount exceeds it, then store
`{code, amount}` on the cart and save. -/
def applyDiscount (discounts : List Discount) (cart : Cart) (code : String)
    (now : Int) : Except CartError Cart :=
  match findDiscount discounts code now with
  | none => .error .InvalidDiscount
  | some discount =>
      let base : ℚ :=
        if discount.kind == .percentage then cart.subtotal * discount.value / 100
        else discount.value
      let amount : ℚ :=
        match discount.maxDiscount with
        | some m => if m ≠ 0 ∧ base > m then m else base
        | none => base
      .ok (saveCart { cart with discount := { code := some code, amount := amount } })

/-- Error outcome of `createOrder`: the only per-line failure is a missing
product. -/
inductive OrderError
  | ProductNotFound
deriving Repr, DecidableEq

/-- An order line (`items` entry of `order.model.ts`): product, quantity,
and the unit price frozen at checkout. -/
structure OrderItem where
  product : Nat
  quantity : Nat
  price : ℚ
deriving Repr, DecidableEq

/-- An order document, projected to the fields `createOrder` computes. -/
structure Order where
  items : List OrderItem
  totalAmount : ℚ
deriving Repr, DecidableEq

/-- The request-item loop of `createOrder` (order controller, packed in
`analytics.controller.js` lines 589-650): for each `(product, quantity)`
pair, resolve the product (`ProductNotFound` aborts the whole request),
push a line frozen at the current catalog price, and accumulate
`totalAmount += price * quantity`.  No stock is consulted and no discount
is subtracted. -/
def buildOrderItems (catalog : List Product) :
    List (Nat × Nat) → Except OrderError (List OrderItem × ℚ)
  | [] => .ok ([], 0)
  | (pid, qty) :: rest =>
      match findProduct catalog pid with
      | none => .error .ProductNotFound
      | some product =>
          match buildOrderItems catalog rest with
          | .error e => .error e
          | .ok (items, total) =>
              .ok ({ product := pid, quantity := qty, price := product.price } :: items,
                   product.price * (qty : ℚ) + total)

/-- `createOrder`: build the order lines and persist the order with the
accumulated total. -/
def createOrder (catalog : List Product) (reqItems : List (Nat × Nat)) :
    Except OrderError Order :=
  match buildOrderItems catalog reqItems with
  | .error e => .error e
  | .ok (items, totalAmount) => .ok { items := items, totalAmount := totalAmount }

/-- Outcomes of the `validateDiscount` endpoint, one per response branch. -/
inductive ValidateResult
  | ok (d : Discount)
  | missingCode
  | invalidCode
  | belowMinPurchase
  | usageLimitReached
deriving Repr, DecidableEq

/-- The `cartTotal && discount.minPurchase > cartTotal` guard of
`validateDiscount`: an absent or zero (JS-falsy) `cartTotal` skips the
minimum-purchase check entirely. -/
def minPurchaseFails (d : Discount) (cartTotal : Option ℚ) : Bool :=
  match cartTotal with
  | none => false
  | some t => decide (t ≠ 0 ∧ d.minPurchase > t)

/-- The `discount.usageLimit && discount.usageCount >= discount.usageLimit`
guard: an unset or zero usage limit never trips it. -/
def usageReached (d : Discount) : Bool :=
  match d.usageLimit with
  | none => false
  | some l => !(l == 0) && decide (l ≤ d.usageCount)

/-- `validateDiscount` (discount.controller.ts lines 280-339): reject a
missing (empty) code, look the code up uppercased among active, unexpired
discounts, then check minimum purchase (only against a truthy `cartTotal`)
and the usage limit.  The `startDate` lower bound is never consulted. -/
def validateDiscount (discounts : List Discount) (code : String)
    (cartTotal : Option ℚ) (now : Int) : ValidateResult :=
  if code = "" then .missingCode
  else
    match findDiscount discounts code now with
    | none => .invalidCode
    | some discount =>
        if minPurchaseFails discount cartTotal then .belowMinPurchase
        else if usageReached discount then .usageLimitReached
        else .ok discount

/-- A single mutating cart operation, for stating the totals invariant
uniformly over `addToCart`, `updateCartItem`, `removeFromCart`,
`clearCart` and `applyDiscount`. -/
inductive CartOp
  | add (productId quantity freshId : Nat)
  | update (itemId quantity : Nat)
  | remove (itemId : Nat)
  | clear
  | applyDisc (code : String)
deriving Repr, DecidableEq

/-- Dispatch a `CartOp` to the corresponding controller. -/
def runCartOp (catalog : List Product) (discounts : List Discount) (now : Int)
    (cart : Cart) : CartOp → Except CartError Cart
  | .add productId quantity freshId => addToCart catalog cart productId quantity freshId
  | .update itemId quantity => updateCartItem catalog cart itemId quantity
  | .remove itemId => removeFromCart cart itemId
  | .clear => clearCart cart
  | .applyDisc code => applyDiscount discounts cart code now

/-- The cart totals invariant of the spec: the stored `subtotal` is the sum
of the stored line totals and the stored `total` is
`max(0, subtotal - discount.amount)`. -/
def CartInvariant (c : Cart) : Prop :=
  c.subtotal = (c.items.map (fun it => it.totalPrice)).sum ∧
  c.total = max 0 (c.subtotal - c.discount.amount)

/-- The pre-save hooks establish the totals invariant on every saved cart. -/
theorem saveCart_invariant (c : Cart) : CartInvariant (saveCart c) :=
  ⟨rfl, rfl⟩

/-- C1: For every cart, after any of the mutating operations (`addItem`,
`updateItem`, `removeItem`, `clear`, `applyDiscount`) completes
successfully, the cart's subtotal equals the sum of its items' line totals
and its total equals `max(0, subtotal - discount.amount)`. -/
theorem cart_totals_recomputed_on_save
    (catalog : List Product) (discounts : List Discount) (now : Int)
    (cart : Cart) (op : CartOp) (cart' : Cart)
    (h : runCartOp catalog discounts now cart op = .ok cart') :
    CartInvariant cart' := by
  cases op <;>
    simp only [runCartOp, addToCart, updateCartItem, removeFromCart, clearCart,
      applyDiscount] at h <;>
    (repeat' split at h) <;>
    first
      | exact Except.noConfusion h
      | (injection h with h; exact h ▸ saveCart_invariant _)

/-- Demonstration catalog: one product with id 1, price 10, stock 5. -/
def demoCatalog : List Product := [⟨1, 10, 5⟩]

/-- The empty cart a user starts from. -/
def emptyCart : Cart := ⟨[], 0, 0, ⟨none, 0⟩, 0⟩

/-- Witness for C1: adding 2 units of the price-10 product to the empty
cart succeeds, and the resulting cart satisfies the totals invariant. -/
theorem cart_totals_recomputed_on_save_witness :
    CartInvariant ⟨[⟨7, 1, 2, 10, 20⟩], 2, 20, ⟨none, 0⟩, 20⟩ :=
  cart_totals_recomputed_on_save demoCatalog [] 0 emptyCart (.add 1 2 7) _
    (by simp [addToCart, findProduct, saveCart, saveItem, addItemToItems,
          demoCatalog, emptyCart, runCartOp]
        norm_num)

/-- If every requested product resolves in the catalog, the order-item loop
never fails: no branch of `buildOrderItems` consults stock. -/
theorem buildOrderItems_ok_of_products_exist
    (catalog : List Product) (reqItems : List (Nat × Nat))
    (h : ∀ pr ∈ reqItems, (findProduct catalog pr.1).isSome) :
    ∃ pr, buildOrderItems catalog reqItems = .ok pr := by
  induction reqItems with
  | nil => exact ⟨([], 0), rfl⟩
  | cons hd tl ih =>
      obtain ⟨pid, qty⟩ := hd
      obtain ⟨p, hp⟩ := Option.isSome_iff_exists.mp (h (pid, qty) (by simp))
      obtain ⟨⟨items, total⟩, htl⟩ := ih (fun pr hpr => h pr (by simp [hpr]))
      refine ⟨({ product := pid, quantity := qty, price := p.price } :: items,
               p.price * (qty : ℚ) + total), ?_⟩
      simp only [buildOrderItems]
      rw [hp, htl]

/-- Counterexample to C2: a checkout line requesting 5 units of a product
whose current stock is 2 does not fail with `InsufficientStock` — the order
is created (and persisted) anyway. -/
theorem createOrder_skips_stock_check_cx :
    createOrder [⟨1, 10, 2⟩] [(1, 5)] = .ok ⟨[⟨1, 5, 10⟩], 50⟩ ∧
      (⟨1, 10, 2⟩ : Product).stock < 5 := by
  refine ⟨?_, by decide⟩
  simp [createOrder, buildOrderItems, findProduct]
  norm_num

/-- C2 (amended): `createOrder` performs no stock check at all — whenever
every referenced product exists, the checkout succeeds and an order is
persisted, regardless of requested quantities versus stock. -/
theorem createOrder_succeeds_without_stock
    (catalog : List Product) (reqItems : List (Nat × Nat))
    (h : ∀ pr ∈ reqItems, (findProduct catalog pr.1).isSome) :
    ∃ order, createOrder catalog reqItems = .ok order := by
  obtain ⟨⟨items, total⟩, hb⟩ := buildOrderItems_ok_of_products_exist catalog reqItems h
  exact ⟨⟨items, total⟩, by simp [createOrder, hb]⟩

/-- Witness for the amended C2, at the counterexample input (quantity 5
against stock 2): the product exists, so the checkout succeeds. -/
theorem createOrder_succeeds_without_stock_witness :
    ∃ order, createOrder [⟨1, 10, 2⟩] [(1, 5)] = .ok order :=
  createOrder_succeeds_without_stock [⟨1, 10, 2⟩] [(1, 5)]
    (by intro pr hpr
        simp only [List.mem_singleton] at hpr
        subst hpr
        simp [findProduct])

/-- Structure of a successful `buildOrderItems` run: the produced lines
mirror the request pairs, each line's price is the product's current
catalog price, and the accumulated total is the sum of price × quantity
over the produced lines. -/
theorem buildOrderItems_spec
    (catalog : List Product) (reqItems : List (Nat × Nat))
    (items : List OrderItem) (total : ℚ)
    (h : buildOrderItems catalog reqItems = .ok (items, total)) :
    items.map (fun oi => (oi.product, oi.quantity)) = reqItems ∧
    (∀ oi ∈ items, ∃ p, findProduct catalog oi.product = some p ∧ oi.price = p.price) ∧
    total = (items.map (fun oi => oi.price * (oi.quantity : ℚ))).sum := by
  induction reqItems generalizing items total with
  | nil =>
      simp only [buildOrderItems, Except.ok.injEq, Prod.mk.injEq] at h
      obtain ⟨h1, h2⟩ := h
      subst h1; subst h2
      simp
  | cons hd tl ih =>
      obtain ⟨pid, qty⟩ := hd
      simp only [buildOrderItems] at h
      cases hp : findProduct catalog pid with
      | none => rw [hp] at h; exact Except.noConfusion h
      | some p =>
          rw [hp] at h
          cases hb : buildOrderItems catalog tl with
          | error e => rw [hb] at h; exact Except.noConfusion h
          | ok pr =>
              obtain ⟨its, t⟩ := pr
              rw [hb] at h
              simp only [Except.ok.injEq, Prod.mk.injEq] at h
              obtain ⟨h1, h2⟩ := h
              subst h1; subst h2
              obtain ⟨ihmap, ihprice, ihtotal⟩ := ih its t hb
              refine ⟨by simp [ihmap], ?_, ?_⟩
              · intro oi hoi
                rcases List.mem_cons.mp hoi with hoi | hoi
                · subst hoi; exact ⟨p, hp, rfl⟩
                · exact ihprice oi hoi
              · simp [ihtotal]

/-- C3: a persisted order's per-line price is the product's current catalog
price at checkout time, and its total is the undiscounted sum of price ×
quantity over its lines (the request's cart discount is never consulted). -/
theorem createOrder_freezes_catalog_price
    (catalog : List Product) (reqItems : List (Nat × Nat)) (order : Order)
    (h : createOrder catalog reqItems = .ok order) :
    order.items.map (fun oi => (oi.product, oi.quantity)) = reqItems ∧
    (∀ oi ∈ order.items, ∃ p, findProduct catalog oi.product = some p ∧ oi.price = p.price) ∧
    order.totalAmount = (order.items.map (fun oi => oi.price * (oi.quantity : ℚ))).sum := by
  simp only [createOrder] at h
  cases hb : buildOrderItems catalog reqItems with
  | error e => rw [hb] at h; exact Except.noConfusion h
  | ok pr =>
      obtain ⟨items, total⟩ := pr
      rw [hb] at h
      simp only [Except.ok.injEq] at h
      subst h
      exact buildOrderItems_spec catalog reqItems items total hb

/-- Witness for C3 at a concrete checkout of 5 units of a price-10
product. -/
theorem createOrder_freezes_catalog_price_witness :
    ((⟨[⟨1, 5, 10⟩], 50⟩ : Order).items.map (fun oi => (oi.product, oi.quantity)) = [(1, 5)] ∧
     (∀ oi ∈ (⟨[⟨1, 5, 10⟩], 50⟩ : Order).items,
        ∃ p, findProduct [⟨1, 10, 2⟩] oi.product = some p ∧ oi.price = p.price) ∧
     (⟨[⟨1, 5, 10⟩], 50⟩ : Order).totalAmount =
       ((⟨[⟨1, 5, 10⟩], 50⟩ : Order).items.map (fun oi => oi.price * (oi.quantity : ℚ))).sum) :=
  createOrder_freezes_catalog_price [⟨1, 10, 2⟩] [(1, 5)] ⟨[⟨1, 5, 10⟩], 50⟩
    (by simp [createOrder, buildOrderItems, findProduct]
        norm_num)

/-- A fixed discount of value 50 carrying a `maxDiscount` cap of 30. -/
def dFix : Discount := ⟨"FIX50", .fixed, 50, some 30, 0, none, 0, true, 0, 1000⟩

/-- A consistent cart with a single line item totalling 100. -/
def cart100 : Cart := ⟨[⟨1, 1, 1, 100, 100⟩], 1, 100, ⟨none, 0⟩, 100⟩

/-- Counterexample to C4: for a fixed discount the stored amount is not
always the discount's value — the `maxDiscount` cap is applied to fixed
discounts too.  Applying `dFix` (fixed, value 50, cap 30) stores amount 30,
not 50. -/
theorem applyDiscount_caps_fixed_value_cx :
    applyDiscount [dFix] cart100 "FIX50" 10 =
      .ok ⟨[⟨1, 1, 1, 100, 100⟩], 1, 100, ⟨some "FIX50", 30⟩, 70⟩ ∧
    dFix.kind = .fixed ∧ dFix.value = 50 ∧ ((30 : ℚ) ≠ 50) := by
  have hup : toUpperCase "FIX50" = "FIX50" := by decide
  refine ⟨?_, rfl, rfl, by norm_num⟩
  simp [applyDiscount, findDiscount, hup, dFix, cart100, saveCart, saveItem]
  norm_num

/-- C4 (amended): for a found discount, the stored amount is
`subtotal × value / 100` for a percentage discount and `value` for a fixed
discount, in both cases capped at `maxDiscount` whenever that field is set
and nonzero and the base amount exceeds it; the cart total then becomes
`max(0, subtotal - amount)`. -/
theorem applyDiscount_amount_formula
    (discounts : List Discount) (cart : Cart) (code : String) (now : Int)
    (d : Discount) (hfd : findDiscount discounts code now = some d) :
    ∃ c', applyDiscount discounts cart code now = .ok c' ∧
      c'.discount.code = some code ∧
      c'.discount.amount =
        (let base : ℚ :=
          if d.kind = .percentage then cart.subtotal * d.value / 100 else d.value
         match d.maxDiscount with
         | some m => if m ≠ 0 ∧ base > m then m else base
         | none => base) ∧
      c'.total = max 0 (c'.subtotal - c'.discount.amount) := by
  simp only [applyDiscount, hfd]
  refine ⟨_, rfl, rfl, ?_, rfl⟩
  cases d.kind <;> cases d.maxDiscount <;> simp [saveCart]

/-- The `SAVE10` discount of the spec: percentage 10, no cap. -/
def save10 : Discount := ⟨"SAVE10", .percentage, 10, none, 0, none, 0, true, 0, 1000⟩

/-- A consistent cart with subtotal 200. -/
def cart200 : Cart := ⟨[⟨1, 1, 2, 100, 200⟩], 2, 200, ⟨none, 0⟩, 200⟩

/-- Witness for the amended C4: applying `SAVE10` (10%, no cap) to a cart
with subtotal 200 follows the formula, and concretely stores amount 20 and
total 180. -/
theorem applyDiscount_amount_formula_witness :
    (∃ c', applyDiscount [save10] cart200 "SAVE10" 5 = .ok c' ∧
      c'.discount.code = some "SAVE10" ∧
      c'.discount.amount =
        (let base : ℚ :=
          if save10.kind = .percentage then cart200.subtotal * save10.value / 100
          else save10.value
         match save10.maxDiscount with
         | some m => if m ≠ 0 ∧ base > m then m else base
         | none => base) ∧
      c'.total = max 0 (c'.subtotal - c'.discount.amount)) ∧
    applyDiscount [save10] cart200 "SAVE10" 5 =
      .ok ⟨[⟨1, 1, 2, 100, 200⟩], 2, 200, ⟨some "SAVE10", 20⟩, 180⟩ := by
  have hup : toUpperCase "SAVE10" = "SAVE10" := by decide
  refine ⟨applyDiscount_amount_formula [save10] cart200 "SAVE10" 5 save10 ?_, ?_⟩
  · simp [findDiscount, hup, save10]
  · simp [applyDiscount, findDiscount, hup, save10, cart200, saveCart, saveItem]
    norm_num

/-- A consistent cart holding one line item with `_id` 1. -/
def cart20 : Cart := ⟨[⟨1, 1, 2, 10, 20⟩], 2, 20, ⟨none, 0⟩, 20⟩

/-- Counterexample to C5: removing item id 2, which is not in the cart,
does not fail with `ItemNotFound` — the controller filters the item list
unconditionally, so the request succeeds and the cart is returned
unchanged. -/
theorem removeFromCart_absent_id_succeeds_cx :
    removeFromCart cart20 2 = .ok cart20 ∧
    cart20.items.all (fun it => it.id != 2) = true := by
  refine ⟨?_, by decide⟩
  simp [removeFromCart, saveCart, saveItem, cart20]
  norm_num

/-- C5 (amended): `removeItem` with an `itemId` absent from the cart
succeeds (no `ItemNotFound` is raised) and leaves the cart unchanged:
on any saved (totals-consistent) cart, the operation returns the very same
cart. -/
theorem removeFromCart_absent_id_noop
    (cart : Cart) (itemId : Nat)
    (habs : cart.items.all (fun it => it.id != itemId) = true)
    (hsaved : saveCart cart = cart) :
    removeFromCart cart itemId = .ok cart := by
  have hfilter : cart.items.filter (fun it => it.id != itemId) = cart.items := by
    apply List.filter_eq_self.mpr
    intro a ha
    exact List.all_eq_true.mp habs a ha
  simp only [removeFromCart, hfilter]
  rw [show { cart with items := cart.items } = cart from rfl, hsaved]

/-- Witness for the amended C5: removing the absent id 3 from `cart20`
returns `cart20` itself. -/
theorem removeFromCart_absent_id_noop_witness :
    removeFromCart cart20 3 = .ok cart20 :=
  removeFromCart_absent_id_noop cart20 3 (by decide)
    (by simp [saveCart, saveItem, cart20]; norm_num)

/-- The boolean lookup predicate of `findDiscount`, unfolded to a
proposition: the stored code equals the uppercased request code, the
discount is active, and the expiry instant is strictly in the future. -/
theorem findDiscount_pred_iff (code : String) (now : Int) (d : Discount) :
    (d.code == toUpperCase code && d.isActive && decide (now < d.expiryDate)) = true ↔
      (d.code = toUpperCase code ∧ d.isActive = true ∧ now < d.expiryDate) := by
  simp [Bool.and_eq_true, and_assoc]

/-- A discount whose `startDate` (validFrom) lies in the future. -/
def dEarly : Discount := ⟨"EARLY", .percentage, 10, none, 0, none, 0, true, 100, 1000⟩

/-- A discount whose usage limit of 1 is already reached. -/
def dUsed : Discount := ⟨"USED", .fixed, 5, none, 0, some 1, 1, true, 0, 1000⟩

/-- Counterexample to C6, on both lookup paths.  Validation: at instant 50,
before `dEarly.startDate = 100`, the current time is outside
`[validFrom, validUntil]` (the model's never-called `isValid` method agrees),
yet validation succeeds — the query never consults `startDate`.
Application: `dUsed` has its usage limit reached, yet the cart
`applyDiscount` controller, which performs no usage-limit check at all,
applies it and stores its amount. -/
theorem discount_lookup_ignores_startDate_and_usage_cx :
    validateDiscount [dEarly] "EARLY" none 50 = .ok dEarly ∧
    (50 : Int) < dEarly.startDate ∧
    dEarly.isValidAt 50 = false ∧
    applyDiscount [dUsed] cart100 "USED" 10 =
      .ok ⟨[⟨1, 1, 1, 100, 100⟩], 1, 100, ⟨some "USED", 5⟩, 95⟩ ∧
    usageReached dUsed = true := by
  have hupE : toUpperCase "EARLY" = "EARLY" := by decide
  have hupU : toUpperCase "USED" = "USED" := by decide
  refine ⟨?_, by decide, by decide, ?_, by decide⟩
  · simp [validateDiscount, findDiscount, hupE, dEarly, minPurchaseFails, usageReached]
  · simp [applyDiscount, findDiscount, hupU, dUsed, cart100, saveCart, saveItem]
    norm_num

/-- C6 (amended): both the application and the validation lookup match the
uppercased request code among active, unexpired (`now < validUntil`)
discounts, and report an invalid code exactly when that lookup finds
nothing; the `startDate`/validFrom lower bound is never part of either
check.  For a found discount, validation (with no `cartTotal`) returns it
exactly when its usage limit is not reached, whereas application performs
no usage-limit check and always succeeds. -/
theorem discount_lookup_characterization
    (discounts : List Discount) (cart : Cart) (code : String) (now : Int)
    (hcode : code ≠ "") :
    (validateDiscount discounts code none now = .invalidCode ↔
       ∀ d ∈ discounts, ¬(d.code = toUpperCase code ∧ d.isActive = true ∧ now < d.expiryDate)) ∧
    (applyDiscount discounts cart code now = .error .InvalidDiscount ↔
       ∀ d ∈ discounts, ¬(d.code = toUpperCase code ∧ d.isActive = true ∧ now < d.expiryDate)) ∧
    (∀ d, findDiscount discounts code now = some d →
       (validateDiscount discounts code none now = .ok d ↔ usageReached d = false) ∧
       ∃ c', applyDiscount discounts cart code now = .ok c') ∧
    (∀ d, validateDiscount discounts code none now = .ok d →
       d.code = toUpperCase code ∧ d.isActive = true ∧ now < d.expiryDate ∧
       usageReached d = false) := by
  refine ⟨?_, ?_, ?_, ?_⟩
  · cases hfd : findDiscount discounts code now with
    | none =>
        simp only [validateDiscount, if_neg hcode, hfd]
        simp only [findDiscount] at hfd
        constructor
        · intro _ d hd hcontra
          exact (List.find?_eq_none.mp hfd d hd) ((findDiscount_pred_iff code now d).mpr hcontra)
        · intro _; trivial
    | some d0 =>
        have hfd' : List.find?
            (fun d => d.code == toUpperCase code && d.isActive && decide (now < d.expiryDate))
            discounts = some d0 := by simpa [findDiscount] using hfd
        have hmem := List.mem_of_find?_eq_some hfd'
        have hp0 := List.find?_some hfd'
        have hpred := (findDiscount_pred_iff code now d0).mp (by simpa using hp0)
        simp only [validateDiscount, if_neg hcode, hfd, minPurchaseFails]
        constructor
        · intro habs
          cases hu : usageReached d0 <;> simp [hu] at habs
        · intro hall
          exact absurd hpred (hall d0 hmem)
  · cases hfd : findDiscount discounts code now with
    | none =>
        simp only [applyDiscount, hfd]
        simp only [findDiscount] at hfd
        constructor
        · intro _ d hd hcontra
          exact (List.find?_eq_none.mp hfd d hd) ((findDiscount_pred_iff code now d).mpr hcontra)
        · intro _; trivial
    | some d0 =>
        have hfd' : List.find?
            (fun d => d.code == toUpperCase code && d.isActive && decide (now < d.expiryDate))
            discounts = some d0 := by simpa [findDiscount] using hfd
        have hmem := List.mem_of_find?_eq_some hfd'
        have hp0 := List.find?_some hfd'
        have hpred := (findDiscount_pred_iff code now d0).mp (by simpa using hp0)
        simp only [applyDiscount, hfd]
        constructor
        · intro habs
          exact Except.noConfusion habs
        · intro hall
          exact absurd hpred (hall d0 hmem)
  · intro d hfd
    constructor
    · simp only [validateDiscount, if_neg hcode, hfd, minPurchaseFails]
      cases hu : usageReached d <;> simp [hu]
    · simp only [applyDiscount, hfd]
      exact ⟨_, rfl⟩
  · intro d hok
    cases hfd : findDiscount discounts code now with
    | none => simp [validateDiscount, if_neg hcode, hfd] at hok
    | some d0 =>
        have hfd' : List.find?
            (fun d => d.code == toUpperCase code && d.isActive && decide (now < d.expiryDate))
            discounts = some d0 := by simpa [findDiscount] using hfd
        have hp0 := List.find?_some hfd'
        have hpred := (findDiscount_pred_iff code now d0).mp (by simpa using hp0)
        simp only [validateDiscount, if_neg hcode, hfd, minPurchaseFails] at hok
        cases hu : usageReached d0 <;> rw [hu] at hok <;> simp at hok
        obtain ⟨h1, h2, h3⟩ := hpred
        subst hok
        exact ⟨h1, h2, h3, hu⟩

/-- Witness for the amended C6: against an empty discount collection both
validation and application report an invalid code, and for the found
usage-limit-reached discount `dUsed` the application path succeeds. -/
theorem discount_lookup_characterization_witness :
    validateDiscount [] "SAVE" none 0 = .invalidCode ∧
    applyDiscount [] cart100 "SAVE" 0 = .error .InvalidDiscount ∧
    (∃ c', applyDiscount [dUsed] cart100 "USED" 10 = .ok c') := by
  have hupU : toUpperCase "USED" = "USED" := by decide
  refine ⟨(discount_lookup_characterization [] cart100 "SAVE" 0 (by decide)).1.mpr (by simp),
    (discount_lookup_characterization [] cart100 "SAVE" 0 (by decide)).2.1.mpr (by simp),
    ((discount_lookup_characterization [dUsed] cart100 "USED" 10 (by decide)).2.2.1 dUsed
      (by simp [findDiscount, hupU, dUsed])).2⟩

/-- The items of a saved cart are the item-hook images of the stored
items. -/
theorem saveCart_items (c : Cart) : (saveCart c).items = c.items.map saveItem :=
  rfl

/-- When no stored line matches the product id, `addItemToItems` appends a
fresh line snapshotting the given price. -/
theorem addItemToItems_all_miss
    (items : List CartItem) (pid q : Nat) (price : ℚ) (fid : Nat)
    (h : ∀ it ∈ items, (it.product == pid) = false) :
    addItemToItems items pid q price fid =
      items ++ [⟨fid, pid, q, price, (q : ℚ) * price⟩] := by
  induction items with
  | nil => simp [addItemToItems]
  | cons a as ih =>
      have ha := h a (by simp)
      simp only [addItemToItems, ha, Bool.false_eq_true, if_false, List.cons_append,
        List.cons.injEq, true_and]
      exact ih (fun it hit => h it (by simp [hit]))

/-- When the first matching line is `it0`, `addItemToItems` merges into it:
quantity summed, stored total set to merged quantity × given price. -/
theorem addItemToItems_first_match
    (pre : List CartItem) (it0 : CartItem) (post : List CartItem)
    (pid q : Nat) (price : ℚ) (fid : Nat)
    (hpre : ∀ it ∈ pre, (it.product == pid) = false)
    (hit0 : (it0.product == pid) = true) :
    addItemToItems (pre ++ it0 :: post) pid q price fid =
      pre ++ ({ it0 with
        quantity := it0.quantity + q,
        totalPrice := ((it0.quantity + q : Nat) : ℚ) * price } :: post) := by
  induction pre with
  | nil => simp [addItemToItems, hit0]
  | cons a as ih =>
      have ha := hpre a (by simp)
      simp only [List.cons_append, addItemToItems, ha, Bool.false_eq_true, if_false,
        List.cons.injEq, true_and]
      exact ih (fun it hit => hpre it (by simp [hit]))

/-- Successful `addToCart` on a cart whose first product-id match is `it0`:
the returned cart is the save of the merged item list. -/
theorem addToCart_merge_eq
    (catalog : List Product) (cart : Cart) (pid q fid : Nat) (p : Product)
    (pre : List CartItem) (it0 : CartItem) (post : List CartItem)
    (hp : findProduct catalog pid = some p) (hs : ¬ p.stock < q)
    (hdec : cart.items = pre ++ it0 :: post)
    (hpre : ∀ it ∈ pre, (it.product == pid) = false)
    (hit0 : it0.product = pid) :
    addToCart catalog cart pid q fid =
      .ok (saveCart { cart with items := pre ++ ({ it0 with
        quantity := it0.quantity + q,
        totalPrice := ((it0.quantity + q : Nat) : ℚ) * p.price } :: post) }) := by
  simp only [addToCart, hp, if_neg hs, hdec]
  rw [addItemToItems_first_match pre it0 post pid q p.price fid hpre (by simp [hit0])]

/-- The current catalog price of the snapshot-10 product is now 20. -/
def catalogP20 : List Product := [⟨1, 20, 10⟩]

/-- A consistent cart holding one unit of product 1 at snapshot price 10
(the catalog price has since risen to 20). -/
def cartSnap10 : Cart := ⟨[⟨5, 1, 1, 10, 10⟩], 1, 10, ⟨none, 0⟩, 10⟩

/-- Counterexample to C7: merging one more unit of a product whose catalog
price rose from the snapshot 10 to 20 persists the line with
`lineTotal = 20 = snapshot 10 × quantity 2`, not the claimed recomputation
`40 = current 20 × quantity 2`: the controller's current-price assignment
is overwritten by the item pre-save hook. -/
theorem addToCart_merge_snapshot_price_cx :
    addToCart catalogP20 cartSnap10 1 1 9 =
      .ok ⟨[⟨5, 1, 2, 10, 20⟩], 2, 20, ⟨none, 0⟩, 20⟩ ∧
    findProduct catalogP20 1 = some ⟨1, 20, 10⟩ ∧
    ((20 : ℚ) * 2 ≠ 20) := by
  refine ⟨?_, by simp [findProduct, catalogP20], by norm_num⟩
  simp [addToCart, findProduct, catalogP20, cartSnap10, addItemToItems,
    saveCart, saveItem]
  norm_num

/-- C7 (amended): a new product appends exactly one line snapshotting the
current catalog price `p` with `lineTotal = p × q`; an existing product is
merged by summing quantities, but the persisted `lineTotal` is recomputed
by the item pre-save hook against the original snapshot price, not the
current catalog price. -/
theorem addToCart_item_list_semantics
    (catalog : List Product) (cart : Cart) (pid q fid : Nat) (p : Product)
    (hp : findProduct catalog pid = some p) (hs : ¬ p.stock < q) :
    ((∀ it ∈ cart.items, (it.product == pid) = false) →
       ∃ c', addToCart catalog cart pid q fid = .ok c' ∧
         c'.items = cart.items.map saveItem ++
           [⟨fid, pid, q, p.price, p.price * (q : ℚ)⟩]) ∧
    (∀ pre it0 post, cart.items = pre ++ it0 :: post →
       (∀ it ∈ pre, (it.product == pid) = false) → it0.product = pid →
       ∃ c', addToCart catalog cart pid q fid = .ok c' ∧
         c'.items = pre.map saveItem ++
           ⟨it0.id, it0.product, it0.quantity + q, it0.price,
             it0.price * ((it0.quantity + q : Nat) : ℚ)⟩ :: post.map saveItem) := by
  constructor
  · intro hmiss
    refine ⟨saveCart { cart with
        items := addItemToItems cart.items pid q p.price fid }, ?_, ?_⟩
    · simp only [addToCart, hp, if_neg hs]
    · rw [saveCart_items]
      rw [addItemToItems_all_miss cart.items pid q p.price fid hmiss]
      simp [saveItem]
  · intro pre it0 post hdec hpre hit0
    refine ⟨_, addToCart_merge_eq catalog cart pid q fid p pre it0 post hp hs hdec hpre hit0, ?_⟩
    rw [saveCart_items]
    simp [saveItem]

/-- Witness for the amended C7: both branches at concrete carts — a fresh
add of 2 units at price 10, and the snapshot-price merge of the
counterexample cart. -/
theorem addToCart_item_list_semantics_witness :
    (∃ c', addToCart demoCatalog emptyCart 1 2 7 = .ok c' ∧
       c'.items = [⟨7, 1, 2, 10, 20⟩]) ∧
    (∃ c', addToCart catalogP20 cartSnap10 1 1 9 = .ok c' ∧
       c'.items = [⟨5, 1, 2, 10, 20⟩]) := by
  constructor
  · obtain ⟨c', hc', hitems⟩ :=
      (addToCart_item_list_semantics demoCatalog emptyCart 1 2 7 ⟨1, 10, 5⟩
        (by simp [findProduct, demoCatalog]) (by decide)).1
        (by intro it hit; simp [emptyCart] at hit)
    refine ⟨c', hc', ?_⟩
    rw [hitems]
    simp [emptyCart]
    norm_num
  · obtain ⟨c', hc', hitems⟩ :=
      (addToCart_item_list_semantics catalogP20 cartSnap10 1 1 9 ⟨1, 20, 10⟩
        (by simp [findProduct, catalogP20]) (by decide)).2
        [] ⟨5, 1, 1, 10, 10⟩ [] (by simp [cartSnap10]) (by simp) rfl
    refine ⟨c', hc', ?_⟩
    rw [hitems]
    norm_num

/-- C9: when the product is already a line of the cart, `addToCart` checks
only the newly requested quantity against the current stock — with
`q ≤ stock` the merge succeeds and the line's quantity becomes `q0 + q`,
with no comparison of the merged quantity against stock. -/
theorem addToCart_merge_checks_only_requested_quantity
    (catalog : List Product) (cart : Cart) (pid q fid : Nat) (p : Product)
    (pre : List CartItem) (it0 : CartItem) (post : List CartItem)
    (hp : findProduct catalog pid = some p) (hq : q ≤ p.stock)
    (hdec : cart.items = pre ++ it0 :: post)
    (hpre : ∀ it ∈ pre, (it.product == pid) = false)
    (hit0 : it0.product = pid) :
    ∃ c', addToCart catalog cart pid q fid = .ok c' ∧
      ∃ merged, c'.items = pre.map saveItem ++ merged :: post.map saveItem ∧
        merged.quantity = it0.quantity + q := by
  refine ⟨_, addToCart_merge_eq catalog cart pid q fid p pre it0 post hp
    (Nat.not_lt.mpr hq) hdec hpre hit0, ?_⟩
  refine ⟨saveItem { it0 with
      quantity := it0.quantity + q,
      totalPrice := ((it0.quantity + q : Nat) : ℚ) * p.price }, ?_, rfl⟩
  rw [saveCart_items]
  simp [saveItem]

/-- Witness for C9: stock is 3, the cart already holds 2 units, and adding
3 more (3 ≤ stock) succeeds with a merged quantity of 5 > stock. -/
theorem addToCart_merge_checks_only_requested_quantity_witness :
    (∃ c', addToCart [⟨1, 10, 3⟩] ⟨[⟨4, 1, 2, 10, 20⟩], 2, 20, ⟨none, 0⟩, 20⟩ 1 3 9 = .ok c' ∧
       ∃ merged, c'.items = [].map saveItem ++ merged :: [].map saveItem ∧
         merged.quantity = 2 + 3) ∧ 3 < 2 + 3 := by
  refine ⟨?_, by decide⟩
  exact addToCart_merge_checks_only_requested_quantity
    [⟨1, 10, 3⟩] ⟨[⟨4, 1, 2, 10, 20⟩], 2, 20, ⟨none, 0⟩, 20⟩ 1 3 9 ⟨1, 10, 3⟩
    [] ⟨4, 1, 2, 10, 20⟩ []
    (by simp [findProduct]) (by decide) (by simp) (by simp) rfl

/-- C8: `updateItem` fails with `ItemNotFound` when no cart line carries
the requested `_id`, and with `InsufficientStock` when the line's product's
current stock is below the new absolute quantity.  In the explicit-state
embedding an error outcome returns no cart — the stored cart is never
written, so it is left unmodified in both failure cases. -/
theorem updateCartItem_failure_cases
    (catalog : List Product) (cart : Cart) (itemId quantity : Nat) :
    (cart.items.find? (fun it => it.id == itemId) = none →
       updateCartItem catalog cart itemId quantity = .error .ItemNotFound) ∧
    (∀ item p, cart.items.find? (fun it => it.id == itemId) = some item →
       findProduct catalog item.product = some p → p.stock < quantity →
       updateCartItem catalog cart itemId quantity = .error .InsufficientStock) := by
  constructor
  · intro hnone
    simp [updateCartItem, hnone]
  · intro item p hfind hp hstock
    simp [updateCartItem, hfind, hp, hstock]

/-- Witness for C8: with a one-line cart (item id 1, product 1, stock 5),
updating the absent id 2 reports `ItemNotFound`, and raising the quantity
of item 1 to 6 > 5 reports `InsufficientStock`. -/
theorem updateCartItem_failure_cases_witness :
    updateCartItem demoCatalog cart20 2 1 = .error .ItemNotFound ∧
    updateCartItem demoCatalog cart20 1 6 = .error .InsufficientStock := by
  constructor
  · exact (updateCartItem_failure_cases demoCatalog cart20 2 1).1 (by decide)
  · exact (updateCartItem_failure_cases demoCatalog cart20 1 6).2 ⟨1, 1, 2, 10, 20⟩
      ⟨1, 10, 5⟩ (by decide) (by simp [findProduct, demoCatalog]) (by decide)

/-- C10: the validation endpoint runs the minimum-purchase check only
against a truthy `cartTotal`: for a found discount whose usage limit is not
reached, a request omitting `cartTotal` or sending `cartTotal = 0`
succeeds and returns the discount even though `minPurchase > 0`. -/
theorem validateDiscount_skips_minPurchase_without_cartTotal
    (discounts : List Discount) (code : String) (now : Int) (d : Discount)
    (hcode : code ≠ "")
    (hfd : findDiscount discounts code now = some d)
    (hu : usageReached d = false)
    (hmin : d.minPurchase > 0) :
    validateDiscount discounts code none now = .ok d ∧
    validateDiscount discounts code (some 0) now = .ok d := by
  constructor <;> simp [validateDiscount, if_neg hcode, hfd, minPurchaseFails, hu]

/-- A fixed discount requiring a minimum purchase of 100. -/
def dMin100 : Discount := ⟨"MIN100", .fixed, 5, none, 100, none, 0, true, 0, 1000⟩

/-- Witness for C10: validating `MIN100` (minPurchase 100) with no
`cartTotal` and with `cartTotal = 0` both return the discount. -/
theorem validateDiscount_skips_minPurchase_without_cartTotal_witness :
    validateDiscount [dMin100] "MIN100" none 10 = .ok dMin100 ∧
    validateDiscount [dMin100] "MIN100" (some 0) 10 = .ok dMin100 := by
  have hup : toUpperCase "MIN100" = "MIN100" := by decide
  exact validateDiscount_skips_minPurchase_without_cartTotal [dMin100] "MIN100" 10 dMin100
    (by decide) (by simp [findDiscount, hup, dMin100]) (by decide) (by norm_num [dMin100])

end ShamKhane
